import Mathlib

/-!
Verification of the real-time conversation and notification subsystem of the
auto-mobile e-commerce backend.

The development shallowly embeds the relevant JavaScript modules:
* the notification enumerations (`src/utils/enums/notificationEnums.js`);
* the notification service (`src/services/notificationService.js`):
  `createNotification`, `markNotificationRead`, `markAllNotificationsRead`,
  `updateNotification`, `deleteNotification`, `bulkNotificationAction`,
  `broadcastUnreadCount`;
* the conversation controller (`src/controllers/conversationController.js`):
  `formatMessage`, `loadConversationDetail`, `getConversationMessages`,
  `startConversation`, `markConversationRead`;
* the socket handler (`src/utils/socketHandler.js`): the connection registry
  (`registerSocket`, `removeSocket`, `emitToUser`, `getOnlineSockets`).

The Mongo document store is modelled as lists of documents inside a `DB`
structure; asynchronous store calls become ordinary function calls on that
state.  ObjectIds are modelled as `Nat` (a raw request id that may fail
`ObjectId.isValid` is modelled as `Option Nat`, `none` standing for a
malformed id).  User ids are `String`s, matching the schema, where the
JavaScript falsy check on an id corresponds to the empty string.  `Date`
values are modelled as `Nat` clock readings passed explicitly to the
operations that stamp them.  Socket emissions performed by an operation are
returned explicitly as a list of events.
-/

namespace AutoEcom

/-- Application-level error (`AppError` in `middleware/errorHandler`):
a message together with an HTTP status code. -/
structure AppErr where
  message : String
  status : Nat
deriving Repr, DecidableEq

/-- Operation error: either an `AppError` thrown by the handler, or a raw
storage-layer error identified by its numeric driver code (Mongo uses
code 11000 for duplicate-key violations). -/
inductive OpErr where
  | app (e : AppErr)
  | storage (code : Nat)
deriving Repr, DecidableEq

/-- A chat message document (`messageSchema` in `models/Conversation.js`):
it belongs to one conversation, has a sender and content, and a creation
timestamp. -/
structure Msg where
  mid : Nat
  conv : Nat
  sender : String
  content : String
  createdAt : Nat
deriving Repr, DecidableEq

/-- A read-mark document (`messageReadSchema` in `models/Conversation.js`):
composite key (message, user), unique per pair. -/
structure ReadMark where
  message : Nat
  user : String
deriving Repr, DecidableEq

/-- A conversation document (`conversationSchema`): a list of participant
user ids. -/
structure Conv where
  cid : Nat
  participants : List String
deriving Repr, DecidableEq

/-- A notification document (`notificationSchema` in `models/Listing.js`).
`extraData` (a Mixed blob in the schema) is modelled as an opaque string. -/
structure Notif where
  nid : Nat
  user : String
  title : String
  message : String
  notificationType : String
  priority : String
  isRead : Bool
  readAt : Option Nat
  extraData : String
  actionUrl : Option String
  actionText : Option String
deriving Repr, DecidableEq

/-- The durable store: collections of documents plus a fresh-id counter
standing for ObjectId generation. -/
structure DB where
  users : List String
  convs : List Conv
  msgs : List Msg
  reads : List ReadMark
  notifs : List Notif
  nextId : Nat
deriving Repr, DecidableEq

/-- A socket emission performed by the notification service
(`emitNotificationCreated` / `emitUnreadCount` in `socketHandler.js`). -/
inductive Event where
  | notificationsNew (userId : String) (nid : Nat)
  | notificationsUnreadCount (userId : String) (count : Nat)
deriving Repr, DecidableEq

/-- The closed enumeration of notification types
(`NOTIFICATION_TYPES` in `utils/enums/notificationEnums.js`). -/
def NOTIFICATION_TYPES : List String :=
  ["welcome", "email_verification", "email_verified", "phone_verification",
   "phone_verified", "facial_verification", "facial_verified",
   "password_reset", "password_changed", "profile_updated",
   "listing_created", "listing_approved", "listing_rejected",
   "message_received", "account_suspended", "account_reactivated",
   "security_alert", "system_maintenance", "promotion", "auction_access",
   "payment_confirmation", "boost_expiry_warning_5d",
   "boost_expiry_warning_3d", "boost_expiry_warning_24h",
   "boost_expiry_warning_6h", "boost_expired", "subscription"]

/-- The closed enumeration of notification priorities
(`NOTIFICATION_PRIORITIES`). -/
def NOTIFICATION_PRIORITIES : List String :=
  ["low", "normal", "high", "urgent"]

/-- `Notification.countDocuments({ user, isRead: false })` — the fresh
unread-count query used by `broadcastUnreadCount` and `getUnreadCount`. -/
def countUnread (db : DB) (u : String) : Nat :=
  (db.notifs.filter (fun n => n.user == u && !n.isRead)).length

/-- The owner-scoped query `{ _id: nid, user: u }` on notifications. -/
def notifKey (nid : Nat) (u : String) : Notif → Bool :=
  fun n => n.nid == nid && n.user == u

/-- The `$set: { isRead: true, readAt: new Date() }` update. -/
def setRead (now : Nat) : Notif → Notif :=
  fun n => { n with isRead := true, readAt := some now }

/-- The `$set: { isRead: false }, $unset: { readAt }` update. -/
def setUnread : Notif → Notif :=
  fun n => { n with isRead := false, readAt := none }

/-- Update the first document matching `p` (the document `findOne`
returned, later written back by `save`). -/
def updateFirst (p : Notif → Bool) (f : Notif → Notif) : List Notif → List Notif
  | [] => []
  | n :: ns => if p n then f n :: ns else n :: updateFirst p f ns

/-- `updateMany`: apply `f` to every document matching `q`. -/
def applyWhere (q : Notif → Bool) (f : Notif → Notif) (l : List Notif) : List Notif :=
  l.map (fun n => if q n then f n else n)

/-- Mongo's `modifiedCount` for an `updateMany`: the number of matched
documents the update actually changes. -/
def modCount (q : Notif → Bool) (f : Notif → Notif) (l : List Notif) : Nat :=
  (l.filter (fun n => q n && decide (f n ≠ n))).length

/-- `Notification.findOne({ _id, user })` — owner-scoped lookup. -/
def getNotif (db : DB) (u : String) (nid : Nat) : Option Notif :=
  db.notifs.find? (notifKey nid u)

/-- `createNotification` in `notificationService.js`: validates the input,
persists the record, then emits a created event followed by the
recomputed unread count of the recipient (`broadcastUnreadCount`).
Returns the created id, the store after the call, and the emissions. -/
def createNotification (db : DB) (userId title message notificationType priority : String)
    (extraData : String) (actionUrl actionText : Option String) :
    Except AppErr Nat × DB × List Event :=
  if userId = "" then
    (.error ⟨"userId is required to create a notification", 400⟩, db, [])
  else if title = "" ∨ message = "" then
    (.error ⟨"Notification title and message are required", 400⟩, db, [])
  else if notificationType ∉ NOTIFICATION_TYPES then
    (.error ⟨"Invalid notification type", 400⟩, db, [])
  else if priority ∉ NOTIFICATION_PRIORITIES then
    (.error ⟨"Invalid notification priority", 400⟩, db, [])
  else
    let n : Notif :=
      { nid := db.nextId, user := userId, title := title, message := message,
        notificationType := notificationType, priority := priority,
        isRead := false, readAt := none, extraData := extraData,
        actionUrl := actionUrl, actionText := actionText }
    let db1 : DB := { db with notifs := db.notifs ++ [n], nextId := db.nextId + 1 }
    (.ok n.nid, db1,
      [.notificationsNew userId n.nid,
       .notificationsUnreadCount userId (countUnread db1 userId)])

/-- `markNotificationRead` in `notificationService.js`: owner-scoped
lookup, then sets `isRead = true` and `readAt = new Date()` (the current
clock reading `now`) unconditionally and saves.  The source performs no
socket emission here, hence the empty event list. -/
def markNotificationRead (db : DB) (u : String) (nid : Nat) (now : Nat) :
    Except AppErr (DB × List Event) :=
  match getNotif db u nid with
  | none => .error ⟨"Notification not found", 404⟩
  | some _ =>
    .ok ({ db with notifs := updateFirst (notifKey nid u) (setRead now) db.notifs }, [])

/-- `markAllNotificationsRead`: `updateMany({ user, isRead: false },
{ $set: { isRead: true, readAt: new Date() } })`.  Returns Mongo's
`modifiedCount` (every matched document changes its `isRead` flag).
No socket emission in the source. -/
def markAllNotificationsRead (db : DB) (u : String) (now : Nat) :
    Nat × DB × List Event :=
  let q : Notif → Bool := fun n => n.user == u && !n.isRead
  ((db.notifs.filter q).length,
   { db with notifs := applyWhere q (setRead now) db.notifs }, [])

/-- The update payload accepted by `updateNotification`: each field is
optional, and aliased fields accept either the camelCase or the
snake_case spelling (first defined alias wins, per the `fieldMap`). -/
structure UpdateData where
  title : Option String := none
  message : Option String := none
  notificationType : Option String := none
  notification_type : Option String := none
  priority : Option String := none
  extraData : Option String := none
  extra_data : Option String := none
  actionUrl : Option String := none
  action_url : Option String := none
  actionText : Option String := none
  action_text : Option String := none
  isRead : Option Bool := none
  is_read : Option Bool := none
deriving Repr, DecidableEq

/-- Apply the `fieldMap` assignments of `updateNotification` to a
notification document, in source order. -/
def applyUpdate (n : Notif) (d : UpdateData) : Notif :=
  let n := match d.title with | some v => { n with title := v } | none => n
  let n := match d.message with | some v => { n with message := v } | none => n
  let n := match d.notificationType <|> d.notification_type with
    | some v => { n with notificationType := v } | none => n
  let n := match d.priority with | some v => { n with priority := v } | none => n
  let n := match d.extraData <|> d.extra_data with
    | some v => { n with extraData := v } | none => n
  let n := match d.actionUrl <|> d.action_url with
    | some v => { n with actionUrl := some v } | none => n
  let n := match d.actionText <|> d.action_text with
    | some v => { n with actionText := some v } | none => n
  match d.isRead <|> d.is_read with
    | some v => { n with isRead := v } | none => n

/-- `updateNotification` in `notificationService.js`: owner-scoped lookup,
alias-resolved field assignment, enum re-validation (guarded by JS
truthiness, so an empty string skips the check), then the `readAt`
bookkeeping: set once when the flag is read and no timestamp exists,
cleared whenever the flag is unread.  No socket emission in the source. -/
def updateNotification (db : DB) (u : String) (nid : Nat) (d : UpdateData) (now : Nat) :
    Except AppErr (DB × List Event) :=
  match getNotif db u nid with
  | none => .error ⟨"Notification not found", 404⟩
  | some n0 =>
    let n1 := applyUpdate n0 d
    if n1.notificationType != "" && !NOTIFICATION_TYPES.contains n1.notificationType then
      .error ⟨"Invalid notification type", 400⟩
    else if n1.priority != "" && !NOTIFICATION_PRIORITIES.contains n1.priority then
      .error ⟨"Invalid notification priority", 400⟩
    else
      let n2 := if n1.isRead && n1.readAt.isNone then { n1 with readAt := some now } else n1
      let n3 := if !n2.isRead then { n2 with readAt := none } else n2
      .ok ({ db with notifs := updateFirst (notifKey nid u) (fun _ => n3) db.notifs }, [])

/-- `deleteNotification`: `findOneAndDelete({ _id, user })` — removes the
first owner-scoped match, 404 when there is none.  No socket emission. -/
def deleteNotification (db : DB) (u : String) (nid : Nat) :
    Except AppErr (DB × List Event) :=
  match getNotif db u nid with
  | none => .error ⟨"Notification not found", 404⟩
  | some _ =>
    .ok ({ db with notifs := db.notifs.eraseP (notifKey nid u) }, [])

/-- The body of a bulk-action request: a list of raw notification ids
(`none` models an id that fails `ObjectId.isValid`; an absent list is the
empty list, per `payload.notificationIds || payload.notification_ids || []`)
and an action string. -/
structure BulkPayload where
  notificationIds : List (Option Nat)
  action : String
deriving Repr, DecidableEq

/-- The query built by `bulkNotificationAction`: always scoped to the
calling user, with the `_id $in validIds` filter added only when the raw
id list is non-empty. -/
def bulkQuery (u : String) (ids : List (Option Nat)) : Notif → Bool :=
  fun n => n.user == u && (ids.isEmpty || (ids.filterMap id).contains n.nid)

/-- `bulkNotificationAction` in `notificationService.js`: validates the
action, builds the owner-scoped query — adding the `_id $in` filter only
when the raw id list is non-empty, rejecting a non-empty list with no
valid ids — then performs the delete or update.  The returned count is
Mongo's `deletedCount` / `modifiedCount`.  No socket emission. -/
def bulkNotificationAction (db : DB) (u : String) (p : BulkPayload) (now : Nat) :
    Except AppErr (Nat × DB × List Event) :=
  if p.action ∉ (["mark_read", "mark_unread", "delete"] : List String) then
    .error ⟨"Invalid action. Use mark_read, mark_unread, or delete", 400⟩
  else if p.notificationIds ≠ [] ∧ p.notificationIds.filterMap id = [] then
    .error ⟨"No valid notification IDs provided", 400⟩
  else
    let q := bulkQuery u p.notificationIds
    if p.action == "delete" then
      .ok ((db.notifs.filter q).length,
           { db with notifs := db.notifs.filter (fun n => !q n) }, [])
    else if p.action == "mark_read" then
      .ok (modCount q (setRead now) db.notifs,
           { db with notifs := applyWhere q (setRead now) db.notifs }, [])
    else
      .ok (modCount q setUnread db.notifs,
           { db with notifs := applyWhere q setUnread db.notifs }, [])

/-- Decidable equality for `Except` results, so that concrete runs of the
operations can be checked by `decide`. -/
instance instDecidableEqExcept {ε α : Type} [DecidableEq ε] [DecidableEq α] :
    DecidableEq (Except ε α) := fun a b =>
  match a, b with
  | .ok x, .ok y =>
    if h : x = y then .isTrue (h ▸ rfl) else .isFalse (fun hc => h (Except.ok.inj hc))
  | .error x, .error y =>
    if h : x = y then .isTrue (h ▸ rfl) else .isFalse (fun hc => h (Except.error.inj hc))
  | .ok _, .error _ => .isFalse (fun hc => Except.noConfusion hc)
  | .error _, .ok _ => .isFalse (fun hc => Except.noConfusion hc)

/-- Example document: one unread notification (id 1) owned by user `u1`. -/
def exNotif : Notif :=
  { nid := 1, user := "u1", title := "T", message := "M",
    notificationType := "welcome", priority := "normal", isRead := false, readAt := none,
    extraData := "", actionUrl := none, actionText := none }

/-- Example store holding only `exNotif`. -/
def exDb : DB :=
  { users := ["u1"], convs := [], msgs := [], reads := [], notifs := [exNotif], nextId := 2 }

/-- `exDb` after `exNotif` was marked read at clock 1. -/
def exDbReadAt1 : DB :=
  { exDb with notifs := [{ exNotif with isRead := true, readAt := some 1 }] }

/-- `exDb` after `exNotif` was marked read at clock 2. -/
def exDbReadAt2 : DB :=
  { exDb with notifs := [{ exNotif with isRead := true, readAt := some 2 }] }

/-- `Conversation.findById`. -/
def findConv (db : DB) (cid : Nat) : Option Conv :=
  db.convs.find? (fun c => c.cid == cid)

/-- The `404 Conversation not found` error, thrown both for a missing
conversation id and for a non-participant caller. -/
def convNotFound : AppErr := ⟨"Conversation not found", 404⟩

/-- A message as shaped by `formatMessage` for API responses. -/
structure FormattedMessage where
  mid : Nat
  conv : Nat
  content : String
  createdAt : Nat
  sender : String
  isRead : Bool
deriving Repr, DecidableEq

/-- The read set queried by the conversation endpoints:
`MessageRead.find({ user, message: { $in: msgIds } }).distinct('message')`
(`distinct` only removes duplicates, which is irrelevant for the membership
tests the set is used for). -/
def readSetFor (db : DB) (u : String) (msgIds : List Nat) : List Nat :=
  (db.reads.filter (fun r => r.user == u && msgIds.contains r.message)).map ReadMark.message

/-- `formatMessage` in the conversation controller: `isRead` is true when
the requester is the sender or a read-mark for (message, requester) is in
the queried read set. -/
def formatMessage (m : Msg) (readSet : List Nat) (currentUserId : String) : FormattedMessage :=
  { mid := m.mid, conv := m.conv, content := m.content, createdAt := m.createdAt,
    sender := m.sender,
    isRead := m.sender == currentUserId || readSet.contains m.mid }

/-- Stable insertion into a list sorted by `createdAt` descending. -/
def insertByCreatedDesc (m : Msg) : List Msg → List Msg
  | [] => [m]
  | x :: xs => if m.createdAt ≤ x.createdAt then x :: insertByCreatedDesc m xs else m :: x :: xs

/-- `.sort({ createdAt: -1 })` — newest first. -/
def sortByCreatedDesc (l : List Msg) : List Msg :=
  l.foldr insertByCreatedDesc []

/-- Messages of one conversation (`Message.find({ conversation })`),
newest first. -/
def conversationMsgs (db : DB) (cid : Nat) : List Msg :=
  sortByCreatedDesc (db.msgs.filter (fun m => m.conv == cid))

/-- The conversation detail assembled by `loadConversationDetail`. -/
structure ConversationDetail where
  cid : Nat
  participants : List String
  messages : List FormattedMessage
deriving Repr, DecidableEq

/-- `loadConversationDetail`: 404 for a missing id, the same 404 for a
non-participant caller; otherwise all messages of the conversation with
their read flags for the caller. -/
def loadConversationDetail (db : DB) (cid : Nat) (u : String) :
    Except AppErr ConversationDetail :=
  match findConv db cid with
  | none => .error convNotFound
  | some c =>
    if ¬ c.participants.contains u then .error convNotFound
    else
      let messages := conversationMsgs db cid
      let readSet := readSetFor db u (messages.map Msg.mid)
      .ok { cid := c.cid, participants := c.participants,
            messages := messages.map (fun m => formatMessage m readSet u) }

/-- A page of conversation messages. -/
structure MessagesPage where
  page : Nat
  limit : Nat
  total : Nat
  messages : List FormattedMessage
deriving Repr, DecidableEq

/-- `getConversationMessages`: the same 404 behaviour as the detail
endpoint, then offset/limit pagination of the newest-first message list
with the server-enforced default (50) and cap (100). -/
def getConversationMessages (db : DB) (cid : Nat) (u : String) (pageQ limitQ : Nat) :
    Except AppErr MessagesPage :=
  match findConv db cid with
  | none => .error convNotFound
  | some c =>
    if ¬ c.participants.contains u then .error convNotFound
    else
      let page := if pageQ > 0 then pageQ else 1
      let limit := if limitQ > 0 then min limitQ 100 else 50
      let skip := (page - 1) * limit
      let all := conversationMsgs db cid
      let pageMsgs := (all.drop skip).take limit
      let readSet := readSetFor db u (pageMsgs.map Msg.mid)
      .ok { page := page, limit := limit, total := all.length,
            messages := pageMsgs.map (fun m => formatMessage m readSet u) }

/-- Membership of a read-mark, per the unique (message, user) index. -/
def hasReadMark (reads : List ReadMark) (p : ReadMark) : Bool :=
  reads.any (fun r => r.message == p.message && r.user == p.user)

/-- Unordered `insertMany` of read-marks against the unique (message, user)
index, run on store state `dbIns` (which may have grown since the marks
were computed — the race C7 tolerates): documents already present fail
individually with duplicate-key code 11000 while the rest are still
inserted; `fault` injects an arbitrary storage failure instead. -/
def insertManyReads (dbIns : DB) (payload : List ReadMark) (fault : Option Nat) :
    DB × Option Nat :=
  match fault with
  | some c => (dbIns, some c)
  | none =>
    let fresh := payload.filter (fun p => !hasReadMark dbIns.reads p)
    let dup := payload.any (fun p => hasReadMark dbIns.reads p)
    ({ dbIns with reads := dbIns.reads ++ fresh }, if dup then some 11000 else none)

/-- The messages of conversation `cid` not sent by `u`, by id — the first
query of `markConversationRead`
(`Message.find({ conversation, sender: { $ne: userId } })`). -/
def convMsgIdsNotFrom (db : DB) (u : String) (cid : Nat) : List Nat :=
  (db.msgs.filter (fun m => m.conv == cid && m.sender != u)).map Msg.mid

/-- `markConversationRead` in the conversation controller, with the store
state at insert time (`dbIns`) and an injectable insert fault made
explicit: 404 for a missing conversation or non-participant, otherwise the
set difference between the conversation's messages not sent by the reader
and the reader's existing read-marks is computed, read-marks are bulk
inserted for exactly that difference (duplicate-key conflicts swallowed,
other insert errors propagated), and its size is returned as
`markedCount`. -/
def markConversationReadAux (db dbIns : DB) (fault : Option Nat) (u : String) (cid : Nat) :
    Except OpErr (Nat × DB) :=
  match findConv db cid with
  | none => .error (.app convNotFound)
  | some c =>
    if ¬ c.participants.contains u then .error (.app convNotFound)
    else
      let msgIds := convMsgIdsNotFrom db u cid
      if msgIds.isEmpty then .ok (0, dbIns)
      else
        let existingIds :=
          (db.reads.filter (fun r => r.user == u && msgIds.contains r.message)).map
            ReadMark.message
        let unread := msgIds.filter (fun i => !existingIds.contains i)
        if unread.isEmpty then .ok (0, dbIns)
        else
          let payload : List ReadMark := unread.map (fun i => ⟨i, u⟩)
          let run := insertManyReads dbIns payload fault
          match run.2 with
          | some c2 => if c2 != 11000 then .error (.storage c2) else .ok (unread.length, run.1)
          | none => .ok (unread.length, run.1)

/-- `markConversationRead` without interference: the queries and the insert
see the same store state and no storage fault is injected. -/
def markConversationRead (db : DB) (u : String) (cid : Nat) : Except OpErr (Nat × DB) :=
  markConversationReadAux db db none u cid

/-- All message ids `u` holds a read-mark for. -/
def userReadIds (db : DB) (u : String) : List Nat :=
  (db.reads.filter (fun r => r.user == u)).map ReadMark.message

/-- The newly-read set: messages of the conversation not sent by the reader
that lack a read-mark for the reader. -/
def newlyRead (db : DB) (u : String) (cid : Nat) : List Nat :=
  (convMsgIdsNotFrom db u cid).filter (fun i => !(userReadIds db u).contains i)

/-- `Conversation.findOne({ participants: { $all: [a, b], $size: 2 } })`:
the first conversation whose participant array has exactly two entries and
contains both users. -/
def findPair (db : DB) (a b : String) : Option Conv :=
  db.convs.find? (fun c =>
    c.participants.length == 2 && c.participants.contains a && c.participants.contains b)

/-- Store an optional initial message (the conversation `updatedAt` bump is
not modelled — conversation timestamps are not part of this state). -/
def addInitialMessage (db : DB) (cid : Nat) (sender : String) (now : Nat) :
    Option String → DB
  | none => db
  | some content =>
    let m : Msg := ⟨db.nextId, cid, sender, content, now⟩
    { db with msgs := db.msgs ++ [m], nextId := db.nextId + 1 }

/-- The fail-silent message notification created for the recipient inside
`startConversation` / `createMessage` (`notificationService.createNotification`
wrapped in a swallowed try/catch; the sender display name in the body is
abstracted to the sender id). -/
def notifyMessageReceived (db : DB) (sender recipient : String) : DB :=
  (createNotification db recipient "New message received"
    (sender ++ " sent you a message") "message_received" "normal" "" none none).2.1

/-- `startConversation`: rejects a missing or self recipient (400), 404
when the recipient does not exist, then reuses the conversation whose
participant set is exactly the pair when the lookup hits and creates one
only on miss; an optional initial message is stored and a message
notification is attempted for the recipient.
Returns (conversationId, created, store). -/
def startConversation (db : DB) (userId recipientId : String)
    (initialMessage : Option String) (now : Nat) : Except AppErr (Nat × Bool × DB) :=
  if recipientId = "" then .error ⟨"recipient_id is required", 400⟩
  else if recipientId = userId then .error ⟨"Cannot start conversation with yourself", 400⟩
  else if ¬ db.users.contains recipientId then .error ⟨"Recipient not found", 404⟩
  else
    match findPair db userId recipientId with
    | some c =>
      match initialMessage with
      | none => .ok (c.cid, false, db)
      | some content =>
        let db1 := addInitialMessage db c.cid userId now (some content)
        .ok (c.cid, false, notifyMessageReceived db1 userId recipientId)
    | none =>
      let c : Conv := ⟨db.nextId, [userId, recipientId]⟩
      let dbc : DB := { db with convs := db.convs ++ [c], nextId := db.nextId + 1 }
      match initialMessage with
      | none => .ok (c.cid, true, dbc)
      | some content =>
        let db1 := addInitialMessage dbc c.cid userId now (some content)
        .ok (c.cid, true, notifyMessageReceived db1 userId recipientId)

/-- The connection registry state of `socketHandler.js`: whether `init` has
run (`ioInstance`) and the `userSockets` map from user id to the ordered
set of live socket ids. -/
structure SocketState where
  ioReady : Bool
  userSockets : List (String × List String)
deriving Repr, DecidableEq

/-- `userSockets.get(id)`. -/
def lookupSockets (s : SocketState) (u : String) : Option (List String) :=
  (s.userSockets.find? (fun q => q.1 == u)).map Prod.snd

/-- `userSockets.set(id, sockets)`: replace the entry, appending when the
key is absent. -/
def setSockets : List (String × List String) → String → List String →
    List (String × List String)
  | [], u, ss => [(u, ss)]
  | q :: rest, u, ss => if q.1 == u then (u, ss) :: rest else q :: setSockets rest u ss

/-- `userSockets.delete(id)`. -/
def removeEntry : List (String × List String) → String → List (String × List String)
  | [], _ => []
  | q :: rest, u => if q.1 == u then rest else q :: removeEntry rest u

/-- `registerSocket`: no-op on falsy ids; otherwise add the socket id to
the user's (created-on-demand) connection set. -/
def registerSocket (s : SocketState) (u sid : String) : SocketState :=
  if u = "" ∨ sid = "" then s
  else
    let existing := (lookupSockets s u).getD []
    let grown := if existing.contains sid then existing else existing ++ [sid]
    { s with userSockets := setSockets s.userSockets u grown }

/-- `removeSocket`: no-op on falsy ids or an unknown user; otherwise delete
the socket id, dropping the user entry entirely when its set empties. -/
def removeSocket (s : SocketState) (u sid : String) : SocketState :=
  if u = "" ∨ sid = "" then s
  else
    match lookupSockets s u with
    | none => s
    | some ss =>
      let ss' := ss.erase sid
      if ss'.isEmpty then { s with userSockets := removeEntry s.userSockets u }
      else { s with userSockets := setSockets s.userSockets u ss' }

/-- `getOnlineSockets`: the user's live socket ids, `[]` for a falsy or
unknown user. -/
def getOnlineSockets (s : SocketState) (u : String) : List String :=
  if u = "" then []
  else
    match lookupSockets s u with
    | none => []
    | some ss => ss

/-- `emitToUser`: false before `init` or for a falsy, unknown or empty-set
user; otherwise emit the event to every registered socket of the user and
return true.  The emissions performed are returned as
(socketId, event, payload) triples. -/
def emitToUser (s : SocketState) (u ev payload : String) :
    Bool × List (String × String × String) :=
  if !s.ioReady then (false, [])
  else if u = "" then (false, [])
  else
    match lookupSockets s u with
    | none => (false, [])
    | some ss =>
      if ss.isEmpty then (false, [])
      else (true, ss.map (fun sid => (sid, ev, payload)))

/-- All of a user's current connections disconnecting in sequence (each
`disconnect` handler calls `removeSocket(userId, socket.id)`). -/
def removeAllSockets (s : SocketState) (u : String) : SocketState :=
  (getOnlineSockets s u).foldl (fun st sid => removeSocket st u sid) s

/-- Well-formedness of the registry, maintained by `registerSocket` and
`removeSocket`: keys are distinct non-empty user ids, and every entry holds
a non-empty duplicate-free set of non-empty socket ids. -/
def RegistryWF (s : SocketState) : Prop :=
  (s.userSockets.map Prod.fst).Nodup ∧
  ∀ q ∈ s.userSockets, q.1 ≠ "" ∧ q.2 ≠ [] ∧ q.2.Nodup ∧ ∀ x ∈ q.2, x ≠ ""

/-- Example conversation between `u1` and `u2` (id 10). -/
def exConv : Conv := ⟨10, ["u1", "u2"]⟩

/-- Example store with three users, the conversation `exConv`, three
messages in it (ids 11, 12, 13 — 11 and 13 from `u2`, 12 from `u1`), and
an existing read-mark of `u1` on message 11. -/
def exDbConv : DB :=
  { users := ["u1", "u2", "u3"], convs := [exConv],
    msgs := [⟨11, 10, "u2", "hi", 1⟩, ⟨12, 10, "u1", "yo", 2⟩, ⟨13, 10, "u2", "again", 3⟩],
    reads := [⟨11, "u1"⟩], notifs := [], nextId := 20 }

/-- `exDbConv` as seen at insert time after a racing read call already
inserted the mark for message 13: the bulk insert will hit the unique
(message, user) index. -/
def exDbConvRace : DB :=
  { exDbConv with reads := [⟨11, "u1"⟩, ⟨13, "u1"⟩] }

/-- Example initialized registry: `u1` has two live connections. -/
def exSock : SocketState := ⟨true, [("u1", ["s1", "s2"])]⟩

/-- Claim C5: a create-notification request whose type or priority is not a
member of its closed enumeration fails with a validation error (HTTP 400)
before any write occurs: the store is returned unchanged, and no created
event and no unread-count push is emitted. -/
theorem createNotification_invalid_enum_rejected
    (db : DB) (u t m ty pr ed : String) (aUrl aText : Option String)
    (h : ty ∉ NOTIFICATION_TYPES ∨ pr ∉ NOTIFICATION_PRIORITIES) :
    ∃ e : AppErr,
      createNotification db u t m ty pr ed aUrl aText = (.error e, db, []) ∧
      e.status = 400 := by
  unfold createNotification
  split_ifs <;> first | exact ⟨_, rfl, rfl⟩ | tauto

/-- Witness for C5 at a concrete input: the type `bogus` is outside the
enumeration and the request is rejected with status 400 and no write. -/
theorem createNotification_invalid_enum_rejected_witness :
    ∃ e : AppErr,
      createNotification exDb "u1" "T" "M" "bogus" "normal" "" none none =
        (.error e, exDb, []) ∧ e.status = 400 :=
  createNotification_invalid_enum_rejected exDb "u1" "T" "M" "bogus" "normal" "" none none
    (Or.inl (by decide))

/-- Claim C3 counterexample: re-marking an already-read notification through
`markNotificationRead` is not a no-op on the stored state — the service sets
`readAt = new Date()` unconditionally, so the read timestamp moves from the
first call's clock (1) to the second call's clock (2). -/
theorem markNotificationRead_remark_changes_timestamp :
    markNotificationRead exDb "u1" 1 1 = .ok (exDbReadAt1, []) ∧
    markNotificationRead exDbReadAt1 "u1" 1 2 = .ok (exDbReadAt2, []) ∧
    exDbReadAt1.notifs.map Notif.readAt = [some 1] ∧
    exDbReadAt2.notifs.map Notif.readAt = [some 2] ∧
    exDbReadAt1 ≠ exDbReadAt2 := by decide

/-- Claim C4 counterexample: marking a notification read is a notification
mutation after which nothing at all is pushed — the user's unread count
changes from 1 to 0, yet the emission list of the mutation is empty, so the
authoritative count is not republished after every mutation.  The same holds
for mark-all-read and delete. -/
theorem notification_mutation_pushes_no_unread_count :
    countUnread exDb "u1" = 1 ∧
    markNotificationRead exDb "u1" 1 1 = .ok (exDbReadAt1, []) ∧
    countUnread exDbReadAt1 "u1" = 0 ∧
    markAllNotificationsRead exDb "u1" 1 = (1, exDbReadAt1, []) ∧
    deleteNotification exDb "u1" 1 = .ok ({ exDb with notifs := [] }, []) := by decide

/-- Looking up after updating the first match: when the update preserves the
search predicate, the looked-up document is the updated one. -/
theorem find?_updateFirst (p : Notif → Bool) (f : Notif → Notif)
    (hf : ∀ n, p n = true → p (f n) = true) :
    ∀ (l : List Notif) (n0 : Notif), l.find? p = some n0 →
      (updateFirst p f l).find? p = some (f n0) := by
  intro l
  induction l with
  | nil => intro n0 h; cases h
  | cons n ns ih =>
    intro n0 h
    by_cases hp : p n = true
    · rw [List.find?_cons_of_pos _ hp] at h
      injection h with h'
      subst h'
      simp only [updateFirst, if_pos hp]
      exact List.find?_cons_of_pos _ (hf n hp)
    · rw [List.find?_cons_of_neg _ hp] at h
      simp only [updateFirst, if_neg hp]
      rw [List.find?_cons_of_neg _ hp]
      exact ih n0 h

/-- Looking up after an `updateMany`: when the query predicate agrees with
the search predicate and the update preserves it, the looked-up document is
the updated one. -/
theorem find?_applyWhere (p q : Notif → Bool) (g : Notif → Notif)
    (hpq : ∀ n, q n = p n) (hg : ∀ n, p n = true → p (g n) = true) :
    ∀ (l : List Notif) (n0 : Notif), l.find? p = some n0 →
      (applyWhere q g l).find? p = some (g n0) := by
  intro l
  induction l with
  | nil => intro n0 h; cases h
  | cons n ns ih =>
    intro n0 h
    by_cases hp : p n = true
    · rw [List.find?_cons_of_pos _ hp] at h
      injection h with h'
      subst h'
      simp only [applyWhere, List.map_cons]
      rw [if_pos ((hpq n).symm ▸ hp)]
      exact List.find?_cons_of_pos _ (hg n hp)
    · rw [List.find?_cons_of_neg _ hp] at h
      simp only [applyWhere, List.map_cons]
      rw [if_neg (fun hq => hp ((hpq n) ▸ hq))]
      rw [List.find?_cons_of_neg _ hp]
      exact ih n0 h

/-- Evaluating `markNotificationRead` on an owned notification: the first
matching document gets `isRead = true` and `readAt = now`. -/
theorem markNotificationRead_eq (db : DB) (u : String) (nid now : Nat) (n0 : Notif)
    (h : getNotif db u nid = some n0) :
    markNotificationRead db u nid now =
      .ok ({ db with notifs := updateFirst (notifKey nid u) (setRead now) db.notifs }, []) := by
  unfold markNotificationRead
  rw [h]

/-- Evaluating `updateNotification` with only `is_read = false` supplied on
an owned notification whose enum fields pass the truthiness-guarded
re-validation: the flag is cleared and the timestamp is cleared with it. -/
theorem updateNotification_is_read_false (db : DB) (u : String) (nid now : Nat) (n0 : Notif)
    (h : getNotif db u nid = some n0)
    (hty : n0.notificationType = "" ∨ n0.notificationType ∈ NOTIFICATION_TYPES)
    (hpr : n0.priority = "" ∨ n0.priority ∈ NOTIFICATION_PRIORITIES) :
    updateNotification db u nid { is_read := some false } now =
      .ok ({ db with notifs := updateFirst (notifKey nid u) (fun _ => setUnread n0) db.notifs },
           []) := by
  have c1 : ¬(¬n0.notificationType = "" ∧ n0.notificationType ∉ NOTIFICATION_TYPES) := by
    rcases hty with h0 | h0
    · exact fun hc => hc.1 h0
    · exact fun hc => hc.2 h0
  have c2 : ¬(¬n0.priority = "" ∧ n0.priority ∉ NOTIFICATION_PRIORITIES) := by
    rcases hpr with h0 | h0
    · exact fun hc => hc.1 h0
    · exact fun hc => hc.2 h0
  simp [updateNotification, h, applyUpdate, setUnread, c1, c2]

/-- Claim C3 (amended): `markNotificationRead` on an owned notification sets
the read flag and the read timestamp; re-marking an already-read
notification is not an error and leaves the read flag `true`, but it
refreshes the read timestamp to the clock of the re-marking call (it is not
set exactly once).  Clearing the flag — through the `mark_unread` bulk
action or through `updateNotification` with `is_read = false` — clears the
timestamp. -/
theorem markNotificationRead_amended (db : DB) (u : String) (nid now1 now2 : Nat)
    (n0 : Notif) (h : getNotif db u nid = some n0)
    (hty : n0.notificationType = "" ∨ n0.notificationType ∈ NOTIFICATION_TYPES)
    (hpr : n0.priority = "" ∨ n0.priority ∈ NOTIFICATION_PRIORITIES) :
    ∃ db1 db2 k db3 db4,
      markNotificationRead db u nid now1 = .ok (db1, []) ∧
      (getNotif db1 u nid).map (fun n => (n.isRead, n.readAt)) = some (true, some now1) ∧
      markNotificationRead db1 u nid now2 = .ok (db2, []) ∧
      (getNotif db2 u nid).map (fun n => (n.isRead, n.readAt)) = some (true, some now2) ∧
      bulkNotificationAction db2 u ⟨[some nid], "mark_unread"⟩ now2 = .ok (k, db3, []) ∧
      (getNotif db3 u nid).map (fun n => (n.isRead, n.readAt)) = some (false, none) ∧
      updateNotification db1 u nid { is_read := some false } now2 = .ok (db4, []) ∧
      (getNotif db4 u nid).map (fun n => (n.isRead, n.readAt)) = some (false, none) := by
  have e1 := markNotificationRead_eq db u nid now1 n0 h
  set db1 : DB :=
    { db with notifs := updateFirst (notifKey nid u) (setRead now1) db.notifs } with hdb1
  have g1 : getNotif db1 u nid = some (setRead now1 n0) :=
    find?_updateFirst (notifKey nid u) (setRead now1) (fun n hn => hn) db.notifs n0 h
  have e2 := markNotificationRead_eq db1 u nid now2 _ g1
  set db2 : DB :=
    { db1 with notifs := updateFirst (notifKey nid u) (setRead now2) db1.notifs } with hdb2
  have g2 : getNotif db2 u nid = some (setRead now2 (setRead now1 n0)) :=
    find?_updateFirst (notifKey nid u) (setRead now2) (fun n hn => hn) db1.notifs _ g1
  have e3 : bulkNotificationAction db2 u ⟨[some nid], "mark_unread"⟩ now2 =
      .ok (modCount (bulkQuery u [some nid]) setUnread db2.notifs,
           { db2 with notifs := applyWhere (bulkQuery u [some nid]) setUnread db2.notifs },
           []) := rfl
  have hpq : ∀ n : Notif, bulkQuery u [some nid] n = notifKey nid u n := by
    intro n
    by_cases h1 : n.nid = nid <;> by_cases h2 : n.user = u <;>
      simp [bulkQuery, notifKey, h1, h2]
  have g3 : getNotif
      ({ db2 with notifs := applyWhere (bulkQuery u [some nid]) setUnread db2.notifs }) u nid =
      some (setUnread (setRead now2 (setRead now1 n0))) :=
    find?_applyWhere (notifKey nid u) (bulkQuery u [some nid]) setUnread hpq
      (fun n hn => hn) db2.notifs _ g2
  have e4 := updateNotification_is_read_false db1 u nid now2 _ g1 hty hpr
  set dbu : DB :=
    { db1 with notifs := updateFirst (notifKey nid u) (fun _ => setUnread (setRead now1 n0)) db1.notifs } with hdbu
  have hkey0 : notifKey nid u n0 = true := List.find?_some h
  have hkey : notifKey nid u (setUnread (setRead now1 n0)) = true := hkey0
  have g4 : getNotif dbu u nid = some (setUnread (setRead now1 n0)) :=
    find?_updateFirst (notifKey nid u) (fun _ => setUnread (setRead now1 n0))
      (fun n hn => hkey) db1.notifs _ g1
  refine ⟨db1, db2, _, _, _, e1, ?_, e2, ?_, e3, ?_, e4, ?_⟩
  · rw [g1]; rfl
  · rw [g2]; rfl
  · rw [g3]; rfl
  · rw [g4]; rfl

/-- Witness for the amended C3 at a concrete input: the single notification
of `exDb`, marked at clock 1, re-marked at clock 2, then cleared. -/
theorem markNotificationRead_amended_witness :
    getNotif exDb "u1" 1 = some exNotif ∧
    (exNotif.notificationType = "" ∨ exNotif.notificationType ∈ NOTIFICATION_TYPES) ∧
    (exNotif.priority = "" ∨ exNotif.priority ∈ NOTIFICATION_PRIORITIES) ∧
    (∃ db1 db2 k db3 db4,
      markNotificationRead exDb "u1" 1 1 = .ok (db1, []) ∧
      (getNotif db1 "u1" 1).map (fun n => (n.isRead, n.readAt)) = some (true, some 1) ∧
      markNotificationRead db1 "u1" 1 2 = .ok (db2, []) ∧
      (getNotif db2 "u1" 1).map (fun n => (n.isRead, n.readAt)) = some (true, some 2) ∧
      bulkNotificationAction db2 "u1" ⟨[some 1], "mark_unread"⟩ 2 = .ok (k, db3, []) ∧
      (getNotif db3 "u1" 1).map (fun n => (n.isRead, n.readAt)) = some (false, none) ∧
      updateNotification db1 "u1" 1 { is_read := some false } 2 = .ok (db4, []) ∧
      (getNotif db4 "u1" 1).map (fun n => (n.isRead, n.readAt)) = some (false, none)) :=
  ⟨by decide, Or.inr (by decide), Or.inr (by decide),
   markNotificationRead_amended exDb "u1" 1 1 2 exNotif (by decide) (Or.inr (by decide))
     (Or.inr (by decide))⟩

/-- Extracting the event list from an `ok` pair equation. -/
theorem ok_pair_events_eq {X dbR : DB} {evR : List Event}
    (hx : (Except.ok (X, ([] : List Event)) : Except AppErr (DB × List Event)) = .ok (dbR, evR)) :
    evR = [] :=
  (Prod.ext_iff.mp (Except.ok.inj hx)).2.symm

/-- Extracting the event list from an `ok` triple equation. -/
theorem ok_triple_events_eq {k kR : Nat} {X dbR : DB} {evR : List Event}
    (hx : (Except.ok (k, X, ([] : List Event)) : Except AppErr (Nat × DB × List Event)) =
      .ok (kR, dbR, evR)) :
    evR = [] :=
  (Prod.ext_iff.mp (Prod.ext_iff.mp (Except.ok.inj hx)).2).2.symm

/-- Claim C4 (amended): the recompute-and-push of the recipient's unread
count happens only on notification creation: a successful create pushes the
created event and then the unread count obtained by a fresh count query on
the post-write store.  The other notification mutations — markRead,
markAllRead, update, delete, bulk action — push nothing at all.  Whenever a
count is pushed it is the fresh count-query result, never incremented
state. -/
theorem unreadCount_recompute_only_on_create
    (db : DB) (u t m ty pr ed : String) (aUrl aText : Option String)
    (hu : u ≠ "") (ht : t ≠ "") (hm : m ≠ "")
    (hty : ty ∈ NOTIFICATION_TYPES) (hpr : pr ∈ NOTIFICATION_PRIORITIES)
    (db1 : DB) (u1 : String) (nid1 now1 : Nat) (db1' : DB) (ev1 : List Event)
    (h1 : markNotificationRead db1 u1 nid1 now1 = .ok (db1', ev1))
    (db2 : DB) (u2 : String) (now2 : Nat)
    (db3 : DB) (u3 : String) (nid3 : Nat) (d3 : UpdateData) (now3 : Nat)
    (db3' : DB) (ev3 : List Event)
    (h3 : updateNotification db3 u3 nid3 d3 now3 = .ok (db3', ev3))
    (db4 : DB) (u4 : String) (nid4 : Nat) (db4' : DB) (ev4 : List Event)
    (h4 : deleteNotification db4 u4 nid4 = .ok (db4', ev4))
    (db5 : DB) (u5 : String) (p5 : BulkPayload) (now5 k5 : Nat) (db5' : DB) (ev5 : List Event)
    (h5 : bulkNotificationAction db5 u5 p5 now5 = .ok (k5, db5', ev5)) :
    (∃ nid db', createNotification db u t m ty pr ed aUrl aText =
        (.ok nid, db', [.notificationsNew u nid,
          .notificationsUnreadCount u (countUnread db' u)])) ∧
    ev1 = [] ∧ (markAllNotificationsRead db2 u2 now2).2.2 = [] ∧
    ev3 = [] ∧ ev4 = [] ∧ ev5 = [] := by
  refine ⟨?_, ?_, rfl, ?_, ?_, ?_⟩
  · unfold createNotification
    split_ifs <;> first | exact ⟨_, _, rfl⟩ | tauto
  · unfold markNotificationRead at h1
    split at h1
    · simp at h1
    · exact ok_pair_events_eq h1
  · unfold updateNotification at h3
    split at h3
    · simp at h3
    · dsimp only at h3
      split_ifs at h3 <;> exact ok_pair_events_eq h3
  · unfold deleteNotification at h4
    split at h4
    · simp at h4
    · exact ok_pair_events_eq h4
  · unfold bulkNotificationAction at h5
    split_ifs at h5 <;> exact ok_triple_events_eq h5

/-- Witness for the amended C4 at concrete inputs: one create (which pushes
the created event and the freshly recomputed count) and one concrete
instance of each other mutation (which push nothing). -/
theorem unreadCount_recompute_only_on_create_witness :
    (("u1" : String) ≠ "" ∧ ("T" : String) ≠ "" ∧ ("M" : String) ≠ "" ∧
      ("welcome" : String) ∈ NOTIFICATION_TYPES ∧
      ("normal" : String) ∈ NOTIFICATION_PRIORITIES) ∧
    markNotificationRead exDb "u1" 1 1 = .ok (exDbReadAt1, []) ∧
    updateNotification exDb "u1" 1 {} 1 = .ok (exDb, []) ∧
    deleteNotification exDb "u1" 1 = .ok ({ exDb with notifs := [] }, []) ∧
    bulkNotificationAction exDb "u1" ⟨[], "delete"⟩ 1 = .ok (1, { exDb with notifs := [] }, []) ∧
    ((∃ nid db', createNotification exDb "u1" "T" "M" "welcome" "normal" "" none none =
        (.ok nid, db', [.notificationsNew "u1" nid,
          .notificationsUnreadCount "u1" (countUnread db' "u1")])) ∧
      ([] : List Event) = [] ∧ (markAllNotificationsRead exDb "u1" 1).2.2 = [] ∧
      ([] : List Event) = [] ∧ ([] : List Event) = [] ∧ ([] : List Event) = []) :=
  ⟨⟨by decide, by decide, by decide, by decide, by decide⟩,
   by decide, by decide, by decide, by decide,
   unreadCount_recompute_only_on_create exDb "u1" "T" "M" "welcome" "normal" "" none none
     (by decide) (by decide) (by decide) (by decide) (by decide)
     exDb "u1" 1 1 exDbReadAt1 [] (by decide)
     exDb "u1" 1
     exDb "u1" 1 {} 1 exDb [] (by decide)
     exDb "u1" 1 { exDb with notifs := [] } [] (by decide)
     exDb "u1" ⟨[], "delete"⟩ 1 1 { exDb with notifs := [] } [] (by decide)⟩

/-- Claim C10: a bulk notification action whose id list is empty (or
absent) applies the action to every notification owned by the caller, not to
none; the `_id $in` filter is added to the query only when the raw list is
non-empty; and a non-empty list containing only invalid ids is rejected with
a validation error. -/
theorem bulkNotificationAction_empty_ids_targets_all
    (db : DB) (u : String) (now : Nat)
    (ids : List (Option Nat)) (hne : ids ≠ []) (hinv : ids.filterMap id = [])
    (a : String) (ha : a ∈ (["mark_read", "mark_unread", "delete"] : List String))
    (rawIds : List (Option Nat)) (hr1 : rawIds ≠ []) (hr2 : rawIds.filterMap id ≠ []) :
    (∃ k db', bulkNotificationAction db u ⟨[], "delete"⟩ now = .ok (k, db', []) ∧
      db'.notifs = db.notifs.filter (fun n => !(n.user == u)) ∧
      k = (db.notifs.filter (fun n => n.user == u)).length) ∧
    (∃ k db', bulkNotificationAction db u ⟨[], "mark_read"⟩ now = .ok (k, db', []) ∧
      db'.notifs = applyWhere (fun n => n.user == u) (setRead now) db.notifs) ∧
    (∃ k db', bulkNotificationAction db u ⟨[], "mark_unread"⟩ now = .ok (k, db', []) ∧
      db'.notifs = applyWhere (fun n => n.user == u) setUnread db.notifs) ∧
    bulkNotificationAction db u ⟨ids, a⟩ now =
      .error ⟨"No valid notification IDs provided", 400⟩ ∧
    (∃ k db', bulkNotificationAction db u ⟨rawIds, "delete"⟩ now = .ok (k, db', []) ∧
      db'.notifs = db.notifs.filter
        (fun n => !(n.user == u && (rawIds.filterMap id).contains n.nid))) := by
  have hq0 : ∀ n : Notif, bulkQuery u [] n = (n.user == u) := by
    intro n
    simp [bulkQuery]
  have hraw : rawIds.isEmpty = false := by
    cases rawIds with
    | nil => exact absurd rfl hr1
    | cons x xs => rfl
  have hqr : ∀ n : Notif,
      bulkQuery u rawIds n = (n.user == u && (rawIds.filterMap id).contains n.nid) := by
    intro n
    simp [bulkQuery, hraw]
  refine ⟨⟨_, _, rfl, ?_, ?_⟩, ⟨_, _, rfl, ?_⟩, ⟨_, _, rfl, ?_⟩, ?_, ?_⟩
  · exact List.filter_congr (fun n _ => by rw [hq0 n])
  · exact (congrArg List.length (List.filter_congr (fun n _ => by rw [hq0 n]))).symm
  · exact List.map_congr_left (fun n _ => by rw [hq0 n])
  · exact List.map_congr_left (fun n _ => by rw [hq0 n])
  · unfold bulkNotificationAction
    rw [if_neg (fun hc => hc ha), if_pos ⟨hne, hinv⟩]
  · have eRaw : bulkNotificationAction db u ⟨rawIds, "delete"⟩ now =
        .ok ((db.notifs.filter (bulkQuery u rawIds)).length,
             { db with notifs := db.notifs.filter (fun n => !bulkQuery u rawIds n) }, []) := by
      unfold bulkNotificationAction
      have hact : ¬((⟨rawIds, "delete"⟩ : BulkPayload).action ∉
          (["mark_read", "mark_unread", "delete"] : List String)) := by simp
      rw [if_neg hact, if_neg (fun hc => hr2 hc.2)]
      rfl
    exact ⟨_, _, eRaw, List.filter_congr (fun n _ => by rw [hqr n])⟩

/-- Witness for C10 at concrete inputs: on `exDb`, an empty id list targets
all of `u1`'s notifications, `[none]` (only an invalid id) is rejected, and
`[some 2]` restricts the query. -/
theorem bulkNotificationAction_empty_ids_targets_all_witness :
    (([none] : List (Option Nat)) ≠ [] ∧ ([none] : List (Option Nat)).filterMap id = [] ∧
      ("mark_read" : String) ∈ (["mark_read", "mark_unread", "delete"] : List String) ∧
      ([some 2] : List (Option Nat)) ≠ [] ∧
      ([some 2] : List (Option Nat)).filterMap id ≠ []) ∧
    ((∃ k db', bulkNotificationAction exDb "u1" ⟨[], "delete"⟩ 5 = .ok (k, db', []) ∧
        db'.notifs = exDb.notifs.filter (fun n => !(n.user == "u1")) ∧
        k = (exDb.notifs.filter (fun n => n.user == "u1")).length) ∧
      (∃ k db', bulkNotificationAction exDb "u1" ⟨[], "mark_read"⟩ 5 = .ok (k, db', []) ∧
        db'.notifs = applyWhere (fun n => n.user == "u1") (setRead 5) exDb.notifs) ∧
      (∃ k db', bulkNotificationAction exDb "u1" ⟨[], "mark_unread"⟩ 5 = .ok (k, db', []) ∧
        db'.notifs = applyWhere (fun n => n.user == "u1") setUnread exDb.notifs) ∧
      bulkNotificationAction exDb "u1" ⟨[none], "mark_read"⟩ 5 =
        .error ⟨"No valid notification IDs provided", 400⟩ ∧
      (∃ k db', bulkNotificationAction exDb "u1" ⟨[some 2], "delete"⟩ 5 = .ok (k, db', []) ∧
        db'.notifs = exDb.notifs.filter (fun n =>
          !(n.user == "u1" && (([some 2] : List (Option Nat)).filterMap id).contains n.nid)))) :=
  ⟨⟨by decide, by decide, by decide, by decide, by decide⟩,
   bulkNotificationAction_empty_ids_targets_all exDb "u1" 5 [none] (by decide) (by decide)
     "mark_read" (by decide) [some 2] (by decide) (by decide)⟩

/-- Claim C6: for a nonexistent conversation id and for an existing
conversation whose participants do not include the caller, both
get-conversation-detail and get-conversation-messages fail with the very
same NotFound error value (status 404, message `Conversation not found`),
so a non-participant cannot distinguish the two cases. -/
theorem conversation_not_found_indistinguishable
    (db : DB) (cid : Nat) (u : String) (pageQ limitQ : Nat) :
    (findConv db cid = none →
      loadConversationDetail db cid u = .error convNotFound ∧
      getConversationMessages db cid u pageQ limitQ = .error convNotFound) ∧
    (∀ c, findConv db cid = some c → u ∉ c.participants →
      loadConversationDetail db cid u = .error convNotFound ∧
      getConversationMessages db cid u pageQ limitQ = .error convNotFound) ∧
    convNotFound.status = 404 ∧ convNotFound.message = "Conversation not found" := by
  refine ⟨?_, ?_, rfl, rfl⟩
  · intro h
    constructor
    · unfold loadConversationDetail
      rw [h]
    · unfold getConversationMessages
      rw [h]
  · intro c hfc hu
    have hcont : ¬c.participants.contains u = true := by simpa using hu
    constructor
    · simp only [loadConversationDetail, hfc]
      rw [if_pos hcont]
    · simp only [getConversationMessages, hfc]
      rw [if_pos hcont]

/-- Witness for C6 at concrete inputs: conversation 99 does not exist in
`exDbConv`, and `u3` is not a participant of conversation 10; both callers
get the identical 404. -/
theorem conversation_not_found_indistinguishable_witness :
    (loadConversationDetail exDbConv 99 "u1" = .error convNotFound ∧
      getConversationMessages exDbConv 99 "u1" 1 50 = .error convNotFound) ∧
    (loadConversationDetail exDbConv 10 "u3" = .error convNotFound ∧
      getConversationMessages exDbConv 10 "u3" 1 50 = .error convNotFound) :=
  ⟨(conversation_not_found_indistinguishable exDbConv 99 "u1" 1 50).1 (by decide),
   (conversation_not_found_indistinguishable exDbConv 10 "u3" 1 50).2.1 exConv
     (by decide) (by decide)⟩

/-- `find?` only depends on the pointwise behaviour of its predicate. -/
theorem find?_congr_pred {α : Type} (p q : α → Bool) (h : ∀ x, p x = q x) :
    ∀ l : List α, l.find? p = l.find? q := by
  intro l
  induction l with
  | nil => rfl
  | cons x xs ih =>
    by_cases hp : p x = true
    · rw [List.find?_cons_of_pos _ hp, List.find?_cons_of_pos _ (by rw [← h x]; exact hp)]
    · rw [List.find?_cons_of_neg _ hp,
        List.find?_cons_of_neg _ (by rw [← h x]; exact hp), ih]

/-- The store fields `startConversation`'s lookup depends on are untouched
by the fail-silent notification write. -/
theorem notifyMessageReceived_pres (db : DB) (a b : String) :
    (notifyMessageReceived db a b).convs = db.convs ∧
    (notifyMessageReceived db a b).users = db.users ∧
    (notifyMessageReceived db a b).msgs = db.msgs := by
  unfold notifyMessageReceived createNotification
  split_ifs <;> exact ⟨rfl, rfl, rfl⟩

/-- Likewise for storing the initial message. -/
theorem addInitialMessage_pres (db : DB) (cid : Nat) (s : String) (now : Nat)
    (msg : Option String) :
    (addInitialMessage db cid s now msg).convs = db.convs ∧
    (addInitialMessage db cid s now msg).users = db.users := by
  cases msg <;> exact ⟨rfl, rfl⟩

/-- The pair lookup is symmetric in its two users. -/
theorem findPair_symm (db : DB) (a b : String) : findPair db b a = findPair db a b := by
  unfold findPair
  exact find?_congr_pred _ _
    (fun c => by simp [Bool.and_assoc, Bool.and_comm, Bool.and_left_comm]) db.convs

/-- Evaluating `startConversation` when the pair lookup hits: the existing
conversation id is returned with `created = false` and the conversation and
user collections are unchanged. -/
theorem startConversation_found (db : DB) (a b : String) (m : Option String) (now : Nat)
    (hb0 : b ≠ "") (hba : b ≠ a) (hb : b ∈ db.users) (c : Conv)
    (hfp : findPair db a b = some c) :
    ∃ db2, startConversation db a b m now = .ok (c.cid, false, db2) ∧
      db2.convs = db.convs ∧ db2.users = db.users := by
  have hbc : db.users.contains b = true := by simpa using hb
  unfold startConversation
  rw [if_neg hb0, if_neg hba, if_neg (fun hcond => hcond hbc)]
  simp only [hfp]
  cases m with
  | none => exact ⟨db, rfl, rfl, rfl⟩
  | some content =>
    refine ⟨_, rfl, ?_, ?_⟩
    · rw [(notifyMessageReceived_pres _ _ _).1, (addInitialMessage_pres _ _ _ _ _).1]
    · rw [(notifyMessageReceived_pres _ _ _).2.1, (addInitialMessage_pres _ _ _ _ _).2]

/-- Evaluating `startConversation` when the pair lookup misses: a new
conversation with participants `[a, b]` is appended and `created = true`. -/
theorem startConversation_miss (db : DB) (a b : String) (m : Option String) (now : Nat)
    (hb0 : b ≠ "") (hba : b ≠ a) (hb : b ∈ db.users)
    (hfp : findPair db a b = none) :
    ∃ db2, startConversation db a b m now = .ok (db.nextId, true, db2) ∧
      db2.convs = db.convs ++ [⟨db.nextId, [a, b]⟩] ∧ db2.users = db.users := by
  have hbc : db.users.contains b = true := by simpa using hb
  unfold startConversation
  rw [if_neg hb0, if_neg hba, if_neg (fun hcond => hcond hbc)]
  simp only [hfp]
  cases m with
  | none => exact ⟨_, rfl, rfl, rfl⟩
  | some content =>
    refine ⟨_, rfl, ?_, ?_⟩
    · rw [(notifyMessageReceived_pres _ _ _).1, (addInitialMessage_pres _ _ _ _ _).1]
    · rw [(notifyMessageReceived_pres _ _ _).2.1, (addInitialMessage_pres _ _ _ _ _).2]

/-- Claim C2: for distinct existing users, starting a conversation twice
with the same pair — in either argument order — yields the same
conversation id both times; an existing conversation with exactly that
two-participant set is reused (`created = false`), and a new one is created
only when the lookup misses. -/
theorem startConversation_idempotent (db : DB) (a b : String) (m1 m2 : Option String)
    (now1 now2 : Nat) (hab : a ≠ b) (ha0 : a ≠ "") (hb0 : b ≠ "")
    (ha : a ∈ db.users) (hb : b ∈ db.users) :
    ∃ cid created db1,
      startConversation db a b m1 now1 = .ok (cid, created, db1) ∧
      (∀ c, findPair db a b = some c → cid = c.cid ∧ created = false) ∧
      (findPair db a b = none → created = true) ∧
      (∃ db2, startConversation db1 a b m2 now2 = .ok (cid, false, db2)) ∧
      (∃ db2, startConversation db1 b a m2 now2 = .ok (cid, false, db2)) := by
  have hba : b ≠ a := fun h => hab h.symm
  cases hfp : findPair db a b with
  | some c =>
    obtain ⟨db1, e1, hcv, hus⟩ := startConversation_found db a b m1 now1 hb0 hba hb c hfp
    have hfp1 : findPair db1 a b = some c := by
      unfold findPair at hfp ⊢
      rw [hcv]
      exact hfp
    have hfp1s : findPair db1 b a = some c := by
      rw [findPair_symm db1 a b]
      exact hfp1
    obtain ⟨db2a, e2a, _, _⟩ :=
      startConversation_found db1 a b m2 now2 hb0 hba (hus.symm ▸ hb) c hfp1
    obtain ⟨db2b, e2b, _, _⟩ :=
      startConversation_found db1 b a m2 now2 ha0 hab (hus.symm ▸ ha) c hfp1s
    refine ⟨c.cid, false, db1, e1, ?_, ?_, ⟨db2a, e2a⟩, ⟨db2b, e2b⟩⟩
    · intro c' hc'
      injection hc' with h'
      subst h'
      exact ⟨rfl, rfl⟩
    · intro hn
      cases hn
  | none =>
    obtain ⟨db1, e1, hcv, hus⟩ := startConversation_miss db a b m1 now1 hb0 hba hb hfp
    have hpredab : ∀ k : Nat, ((⟨k, [a, b]⟩ : Conv).participants.length == 2 &&
        (⟨k, [a, b]⟩ : Conv).participants.contains a &&
        (⟨k, [a, b]⟩ : Conv).participants.contains b) = true := by
      intro k
      simp
    have hfp1 : findPair db1 a b = some ⟨db.nextId, [a, b]⟩ := by
      unfold findPair at hfp ⊢
      rw [hcv, List.find?_append, hfp]
      simp only [Option.none_or]
      exact List.find?_cons_of_pos _ (hpredab db.nextId)
    have hfp1s : findPair db1 b a = some ⟨db.nextId, [a, b]⟩ := by
      rw [findPair_symm db1 a b]
      exact hfp1
    obtain ⟨db2a, e2a, _, _⟩ :=
      startConversation_found db1 a b m2 now2 hb0 hba (hus.symm ▸ hb) _ hfp1
    obtain ⟨db2b, e2b, _, _⟩ :=
      startConversation_found db1 b a m2 now2 ha0 hab (hus.symm ▸ ha) _ hfp1s
    refine ⟨db.nextId, true, db1, e1, ?_, fun _ => rfl, ⟨db2a, e2a⟩, ⟨db2b, e2b⟩⟩
    intro c' hc'
    cases hc'

/-- Witness for C2 at concrete inputs: on `exDbConv`, `u1` starting a
conversation with `u2` (with an initial message) reuses conversation 10,
and repeating the call in both argument orders returns the same id. -/
theorem startConversation_idempotent_witness :
    (("u1" : String) ≠ "u2" ∧ ("u1" : String) ≠ "" ∧ ("u2" : String) ≠ "" ∧
      ("u1" : String) ∈ exDbConv.users ∧ ("u2" : String) ∈ exDbConv.users) ∧
    (∃ cid created db1,
      startConversation exDbConv "u1" "u2" (some "Hi") 30 = .ok (cid, created, db1) ∧
      (∀ c, findPair exDbConv "u1" "u2" = some c → cid = c.cid ∧ created = false) ∧
      (findPair exDbConv "u1" "u2" = none → created = true) ∧
      (∃ db2, startConversation db1 "u1" "u2" none 31 = .ok (cid, false, db2)) ∧
      (∃ db2, startConversation db1 "u2" "u1" none 31 = .ok (cid, false, db2))) :=
  ⟨⟨by decide, by decide, by decide, by decide, by decide⟩,
   startConversation_idempotent exDbConv "u1" "u2" (some "Hi") none 30 31
     (by decide) (by decide) (by decide) (by decide) (by decide)⟩

/-- For ids of the conversation's not-own messages, the `$in`-restricted
read query of `markConversationRead` agrees with the reader's full
read-mark set, so the unread filter computes exactly `newlyRead`. -/
theorem unread_eq_newlyRead (db : DB) (u : String) (cid : Nat) :
    (convMsgIdsNotFrom db u cid).filter (fun i =>
      !((db.reads.filter (fun r => r.user == u &&
          (convMsgIdsNotFrom db u cid).contains r.message)).map ReadMark.message).contains i)
    = newlyRead db u cid := by
  have key : ∀ i ∈ convMsgIdsNotFrom db u cid,
      ((db.reads.filter (fun r => r.user == u &&
          (convMsgIdsNotFrom db u cid).contains r.message)).map ReadMark.message).contains i
      = ((db.reads.filter (fun r => r.user == u)).map ReadMark.message).contains i := by
    intro i hi
    apply Bool.coe_iff_coe.mp
    constructor
    · intro hx
      have hx' : ∃ r, (r ∈ db.reads ∧ r.user = u ∧
          r.message ∈ convMsgIdsNotFrom db u cid) ∧ r.message = i := by simpa using hx
      rcases hx' with ⟨r, ⟨hrr, hru, _⟩, hrm⟩
      have : i ∈ (db.reads.filter (fun r => r.user == u)).map ReadMark.message :=
        List.mem_map.mpr ⟨r, List.mem_filter.mpr ⟨hrr, by simpa using hru⟩, hrm⟩
      simpa using this
    · intro hx
      have hx' : ∃ r, (r ∈ db.reads ∧ r.user = u) ∧ r.message = i := by simpa using hx
      rcases hx' with ⟨r, ⟨hrr, hru⟩, hrm⟩
      have hcont : r.message ∈ convMsgIdsNotFrom db u cid := by
        rw [hrm]
        exact hi
      have : i ∈ (db.reads.filter (fun r => r.user == u &&
          (convMsgIdsNotFrom db u cid).contains r.message)).map ReadMark.message := by
        refine List.mem_map.mpr ⟨r, List.mem_filter.mpr ⟨hrr, ?_⟩, hrm⟩
        rw [Bool.and_eq_true]
        exact ⟨by simpa using hru, by simpa using hcont⟩
      simpa using this
  unfold newlyRead userReadIds
  apply List.filter_congr
  intro i hi
  rw [key i hi]

/-- Claim C7: in `markConversationRead`'s bulk insert of read-marks, a
duplicate-key conflict (the insert running against a store `dbIns` into
which an overlapping read call already wrote some of the same marks) is
swallowed: the operation still succeeds with the computed count and the
missing marks are still inserted.  Any non-duplicate-key insertion error
code propagates and fails the whole operation. -/
theorem markConversationRead_duplicate_swallowed
    (db dbIns : DB) (u : String) (cid : Nat) (c : Conv)
    (hc : findConv db cid = some c) (hp : u ∈ c.participants)
    (hne : newlyRead db u cid ≠ []) (code : Nat) (hcode : code ≠ 11000) :
    (∃ db2, markConversationReadAux db dbIns none u cid =
        .ok ((newlyRead db u cid).length, db2) ∧
      db2.reads = dbIns.reads ++
        ((newlyRead db u cid).map (fun i => (⟨i, u⟩ : ReadMark))).filter
          (fun q => !hasReadMark dbIns.reads q)) ∧
    markConversationReadAux db dbIns (some code) u cid = .error (.storage code) := by
  have hcont : c.participants.contains u = true := by simpa using hp
  have hunread := unread_eq_newlyRead db u cid
  have hM : ¬((convMsgIdsNotFrom db u cid).isEmpty = true) := by
    intro hM
    apply hne
    unfold newlyRead
    rw [List.isEmpty_iff.mp hM]
    rfl
  have hUne : ¬((newlyRead db u cid).isEmpty = true) := by
    intro hh
    exact hne (List.isEmpty_iff.mp hh)
  constructor
  · simp only [markConversationReadAux, hc]
    rw [if_neg (fun hcond => hcond hcont), if_neg hM, hunread, if_neg hUne]
    simp only [insertManyReads]
    by_cases hdup : ((newlyRead db u cid).map (fun i => (⟨i, u⟩ : ReadMark))).any
        (fun q => hasReadMark dbIns.reads q) = true
    · rw [if_pos hdup]
      exact ⟨_, rfl, rfl⟩
    · rw [if_neg hdup]
      exact ⟨_, rfl, rfl⟩
  · simp only [markConversationReadAux, hc]
    rw [if_neg (fun hcond => hcond hcont), if_neg hM, hunread, if_neg hUne]
    simp only [insertManyReads]
    rw [if_pos (bne_iff_ne.mpr hcode)]

/-- Witness for C7 at concrete inputs: on `exDbConv` the newly-read set of
`u1` in conversation 10 is `[13]`; with a racing state `exDbConvRace` that
already holds the mark for 13, the duplicate conflict is swallowed and the
call still succeeds, while an injected storage error 500 fails it. -/
theorem markConversationRead_duplicate_swallowed_witness :
    (findConv exDbConv 10 = some exConv ∧ ("u1" : String) ∈ exConv.participants ∧
      newlyRead exDbConv "u1" 10 ≠ [] ∧ (500 : Nat) ≠ 11000) ∧
    ((∃ db2, markConversationReadAux exDbConv exDbConvRace none "u1" 10 =
        .ok ((newlyRead exDbConv "u1" 10).length, db2) ∧
      db2.reads = exDbConvRace.reads ++
        ((newlyRead exDbConv "u1" 10).map (fun i => (⟨i, "u1"⟩ : ReadMark))).filter
          (fun q => !hasReadMark exDbConvRace.reads q)) ∧
    markConversationReadAux exDbConv exDbConvRace (some 500) "u1" 10 =
      .error (.storage 500)) :=
  ⟨⟨by decide, by decide, by decide, by decide⟩,
   markConversationRead_duplicate_swallowed exDbConv exDbConvRace "u1" 10 exConv
     (by decide) (by decide) (by decide) 500 (by decide)⟩

/-- Membership is preserved by sorted insertion. -/
theorem mem_insertByCreatedDesc {x m : Msg} :
    ∀ {l : List Msg}, x ∈ insertByCreatedDesc m l ↔ x = m ∨ x ∈ l := by
  intro l
  induction l with
  | nil => simp [insertByCreatedDesc]
  | cons y ys ih =>
    simp only [insertByCreatedDesc]
    by_cases hcmp : m.createdAt ≤ y.createdAt
    · rw [if_pos hcmp]
      simp only [List.mem_cons, ih]
      tauto
    · rw [if_neg hcmp]
      simp only [List.mem_cons]

/-- Sorting by creation time does not change membership. -/
theorem mem_sortByCreatedDesc {x : Msg} :
    ∀ {l : List Msg}, x ∈ sortByCreatedDesc l ↔ x ∈ l := by
  intro l
  induction l with
  | nil => exact Iff.rfl
  | cons y ys ih =>
    simp only [sortByCreatedDesc, List.foldr_cons] at ih ⊢
    rw [mem_insertByCreatedDesc, ih]
    simp [List.mem_cons]

/-- When message ids are globally unique, the size of the newly-read list
is exactly the cardinality of the set difference between the conversation's
not-own message ids and the reader's read-mark ids. -/
theorem newlyRead_card (db : DB) (u : String) (cid : Nat)
    (hnd : (db.msgs.map Msg.mid).Nodup) :
    (newlyRead db u cid).length =
      ((convMsgIdsNotFrom db u cid).toFinset \ (userReadIds db u).toFinset).card := by
  have hsub : (convMsgIdsNotFrom db u cid).Sublist (db.msgs.map Msg.mid) :=
    List.Sublist.map Msg.mid (List.filter_sublist db.msgs)
  have hndA : (convMsgIdsNotFrom db u cid).Nodup := List.Nodup.sublist hsub hnd
  have hndN : (newlyRead db u cid).Nodup := hndA.filter _
  have hset : (convMsgIdsNotFrom db u cid).toFinset \ (userReadIds db u).toFinset
      = (newlyRead db u cid).toFinset := by
    ext x
    simp only [Finset.mem_sdiff, List.mem_toFinset, newlyRead, List.mem_filter,
      Bool.not_eq_true']
    constructor
    · rintro ⟨hA, hB⟩
      refine ⟨hA, ?_⟩
      cases hv : (userReadIds db u).contains x
      · rfl
      · exact absurd (by simpa using hv) hB
    · rintro ⟨hA, hB⟩
      refine ⟨hA, ?_⟩
      intro hxB
      have hcB : (userReadIds db u).contains x = true := by simpa using hxB
      rw [hcB] at hB
      cases hB
  rw [hset, List.toFinset_card_of_nodup hndN]

/-- When every not-own message of the conversation carries a read-mark for
the caller, every message the detail endpoint returns that was not sent by
the caller is reported read. -/
theorem detail_all_read (db2 : DB) (u : String) (cid : Nat) (c : Conv)
    (hc2 : findConv db2 cid = some c) (hp : u ∈ c.participants)
    (hall : ∀ m ∈ db2.msgs, m.conv = cid → m.sender ≠ u →
      ∃ r ∈ db2.reads, r.user = u ∧ r.message = m.mid) :
    ∀ d, loadConversationDetail db2 cid u = .ok d →
      ∀ fm ∈ d.messages, fm.sender ≠ u → fm.isRead = true := by
  intro d hd fm hfm hs
  have hcont : c.participants.contains u = true := by simpa using hp
  simp only [loadConversationDetail, hc2] at hd
  rw [if_neg (fun hcond => hcond hcont)] at hd
  injection hd with hd'
  subst hd'
  rcases List.mem_map.mp hfm with ⟨m, hm, rfl⟩
  have hmf : m ∈ db2.msgs.filter (fun mm => mm.conv == cid) := mem_sortByCreatedDesc.mp hm
  rcases List.mem_filter.mp hmf with ⟨hmm, hcv⟩
  have hsend : m.sender ≠ u := hs
  rcases hall m hmm (by simpa using hcv) hsend with ⟨r, hr, hru, hrm⟩
  simp only [formatMessage]
  rw [Bool.or_eq_true]
  right
  have hmem : m.mid ∈ readSetFor db2 u ((conversationMsgs db2 cid).map Msg.mid) := by
    unfold readSetFor
    refine List.mem_map.mpr ⟨r, List.mem_filter.mpr ⟨hr, ?_⟩, hrm⟩
    rw [Bool.and_eq_true]
    refine ⟨by simpa using hru, ?_⟩
    rw [hrm]
    have : m.mid ∈ (conversationMsgs db2 cid).map Msg.mid := List.mem_map.mpr ⟨m, hm, rfl⟩
    simpa using this
  simpa using hmem

/-- When every not-own message of the conversation carries a read-mark for
the caller, `markConversationRead` is a no-op returning `markedCount = 0`
and leaving the store unchanged. -/
theorem markConversationRead_noop (db2 : DB) (u : String) (cid : Nat) (c : Conv)
    (hc2 : findConv db2 cid = some c) (hp : u ∈ c.participants)
    (hall : ∀ i ∈ convMsgIdsNotFrom db2 u cid,
      ∃ r ∈ db2.reads, r.user = u ∧ r.message = i) :
    markConversationRead db2 u cid = .ok (0, db2) := by
  have hcont : c.participants.contains u = true := by simpa using hp
  unfold markConversationRead
  simp only [markConversationReadAux, hc2]
  rw [if_neg (fun hcond => hcond hcont)]
  by_cases hM : (convMsgIdsNotFrom db2 u cid).isEmpty = true
  · rw [if_pos hM]
  · rw [if_neg hM]
    have hnil : (convMsgIdsNotFrom db2 u cid).filter (fun i =>
        !((db2.reads.filter (fun r => r.user == u &&
          (convMsgIdsNotFrom db2 u cid).contains r.message)).map ReadMark.message).contains i)
        = [] := by
      rw [unread_eq_newlyRead]
      unfold newlyRead
      apply List.filter_eq_nil_iff.mpr
      intro i hi
      rcases hall i hi with ⟨r, hr, hru, hrm⟩
      have hmemB : i ∈ userReadIds db2 u :=
        List.mem_map.mpr ⟨r, List.mem_filter.mpr ⟨hr, by simpa using hru⟩, hrm⟩
      have hcB : (userReadIds db2 u).contains i = true := by simpa using hmemB
      rw [Bool.not_eq_true', hcB]
      simp
    rw [hnil]
    rfl

/-- Claim C1: `markConversationRead(R, C)` computes exactly the set
difference between the conversation's messages not sent by `R` and `R`'s
existing read-marks, inserts read-marks for exactly that difference, and
returns its size as `markedCount`; afterwards every message in `C` not sent
by `R` is reported read for `R` by the detail endpoint, and an immediately
repeated call returns `markedCount = 0`. -/
theorem markConversationRead_correct (db : DB) (u : String) (cid : Nat) (c : Conv)
    (hc : findConv db cid = some c) (hp : u ∈ c.participants)
    (hnd : (db.msgs.map Msg.mid).Nodup) :
    ∃ db2,
      markConversationRead db u cid = .ok ((newlyRead db u cid).length, db2) ∧
      (newlyRead db u cid).length =
        ((convMsgIdsNotFrom db u cid).toFinset \ (userReadIds db u).toFinset).card ∧
      db2.reads = db.reads ++ (newlyRead db u cid).map (fun i => (⟨i, u⟩ : ReadMark)) ∧
      (∀ d, loadConversationDetail db2 cid u = .ok d →
        ∀ fm ∈ d.messages, fm.sender ≠ u → fm.isRead = true) ∧
      markConversationRead db2 u cid = .ok (0, db2) := by
  have hcont : c.participants.contains u = true := by simpa using hp
  have hunread := unread_eq_newlyRead db u cid
  by_cases hU : newlyRead db u cid = []
  · have heval : markConversationRead db u cid = .ok (0, db) := by
      unfold markConversationRead
      simp only [markConversationReadAux, hc]
      rw [if_neg (fun hcond => hcond hcont)]
      by_cases hM : (convMsgIdsNotFrom db u cid).isEmpty = true
      · rw [if_pos hM]
      · rw [if_neg hM, hunread, hU]
        rfl
    have hall : ∀ i ∈ convMsgIdsNotFrom db u cid,
        ∃ r ∈ db.reads, r.user = u ∧ r.message = i := by
      intro i hi
      have hcB : (userReadIds db u).contains i = true := by
        by_contra hcc
        have hfB : (userReadIds db u).contains i = false := by
          cases hv : (userReadIds db u).contains i
          · rfl
          · exact absurd hv hcc
        have hmem : i ∈ newlyRead db u cid := by
          unfold newlyRead
          refine List.mem_filter.mpr ⟨hi, ?_⟩
          rw [Bool.not_eq_true', hfB]
        rw [hU] at hmem
        cases hmem
      have hmemB : i ∈ userReadIds db u := by simpa using hcB
      have hx' : ∃ r, (r ∈ db.reads ∧ r.user = u) ∧ r.message = i := by
        simpa [userReadIds] using hmemB
      rcases hx' with ⟨r, ⟨hrr, hru⟩, hrm⟩
      exact ⟨r, hrr, hru, hrm⟩
    refine ⟨db, ?_, newlyRead_card db u cid hnd, ?_, ?_, ?_⟩
    · rw [heval, hU]
      rfl
    · rw [hU]
      simp
    · refine detail_all_read db u cid c hc hp ?_
      intro m hm hcv hsd
      refine hall m.mid (List.mem_map.mpr ⟨m, List.mem_filter.mpr ⟨hm, ?_⟩, rfl⟩)
      rw [Bool.and_eq_true]
      exact ⟨by simpa using hcv, bne_iff_ne.mpr hsd⟩
    · exact markConversationRead_noop db u cid c hc hp hall
  · have hM : ¬((convMsgIdsNotFrom db u cid).isEmpty = true) := by
      intro hM
      apply hU
      unfold newlyRead
      rw [List.isEmpty_iff.mp hM]
      rfl
    have hUne : ¬((newlyRead db u cid).isEmpty = true) :=
      fun hh => hU (List.isEmpty_iff.mp hh)
    have hfresh : ∀ q ∈ (newlyRead db u cid).map (fun i => (⟨i, u⟩ : ReadMark)),
        ¬hasReadMark db.reads q = true := by
      intro q hq hhas
      rcases List.mem_map.mp hq with ⟨i, hi, rfl⟩
      rcases List.any_eq_true.mp hhas with ⟨r, hr, hrcond⟩
      rw [Bool.and_eq_true] at hrcond
      have hmemB : i ∈ userReadIds db u :=
        List.mem_map.mpr ⟨r, List.mem_filter.mpr ⟨hr, hrcond.2⟩, by simpa using hrcond.1⟩
      have hx2 : i ∈ convMsgIdsNotFrom db u cid ∧ i ∉ userReadIds db u := by
        simpa [newlyRead] using hi
      exact hx2.2 hmemB
    have hfreshF : ((newlyRead db u cid).map (fun i => (⟨i, u⟩ : ReadMark))).filter
        (fun q => !hasReadMark db.reads q) =
        (newlyRead db u cid).map (fun i => (⟨i, u⟩ : ReadMark)) := by
      apply List.filter_eq_self.mpr
      intro q hq
      rw [Bool.not_eq_true']
      cases hv : hasReadMark db.reads q
      · rfl
      · exact absurd hv (hfresh q hq)
    have hdup : ((newlyRead db u cid).map (fun i => (⟨i, u⟩ : ReadMark))).any
        (fun q => hasReadMark db.reads q) = false :=
      List.any_eq_false.mpr hfresh
    have heval : markConversationRead db u cid =
        .ok ((newlyRead db u cid).length,
          { db with reads := db.reads ++
            (newlyRead db u cid).map (fun i => (⟨i, u⟩ : ReadMark)) }) := by
      unfold markConversationRead
      simp only [markConversationReadAux, hc]
      rw [if_neg (fun hcond => hcond hcont), if_neg hM, hunread, if_neg hUne]
      simp only [insertManyReads]
      rw [hdup, if_neg Bool.false_ne_true, hfreshF]
    set db2 : DB := { db with reads := db.reads ++
      (newlyRead db u cid).map (fun i => (⟨i, u⟩ : ReadMark)) } with hdb2
    have hall2 : ∀ i ∈ convMsgIdsNotFrom db u cid,
        ∃ r ∈ db2.reads, r.user = u ∧ r.message = i := by
      intro i hi
      by_cases hB : (userReadIds db u).contains i = true
      · have hmemB : i ∈ userReadIds db u := by simpa using hB
        have hx' : ∃ r, (r ∈ db.reads ∧ r.user = u) ∧ r.message = i := by
          simpa [userReadIds] using hmemB
        rcases hx' with ⟨r, ⟨hrr, hru⟩, hrm⟩
        exact ⟨r, List.mem_append_left _ hrr, hru, hrm⟩
      · have hfB : (userReadIds db u).contains i = false := by
          cases hv : (userReadIds db u).contains i
          · rfl
          · exact absurd hv hB
        have hiN : i ∈ newlyRead db u cid := by
          unfold newlyRead
          refine List.mem_filter.mpr ⟨hi, ?_⟩
          rw [Bool.not_eq_true', hfB]
        exact ⟨⟨i, u⟩, List.mem_append_right _ (List.mem_map.mpr ⟨i, hiN, rfl⟩), rfl, rfl⟩
    refine ⟨db2, heval, newlyRead_card db u cid hnd, by rw [hdb2], ?_, ?_⟩
    · refine detail_all_read db2 u cid c hc hp ?_
      intro m hm hcv hsd
      refine hall2 m.mid (List.mem_map.mpr ⟨m, List.mem_filter.mpr ⟨hm, ?_⟩, rfl⟩)
      rw [Bool.and_eq_true]
      exact ⟨by simpa using hcv, bne_iff_ne.mpr hsd⟩
    · exact markConversationRead_noop db2 u cid c hc hp hall2

/-- Witness for C1 at concrete inputs: on `exDbConv`, `u1` marking
conversation 10 read marks exactly message 13 (11 was already read, 12 is
`u1`'s own), and repeating the call marks nothing. -/
theorem markConversationRead_correct_witness :
    (findConv exDbConv 10 = some exConv ∧ ("u1" : String) ∈ exConv.participants ∧
      (exDbConv.msgs.map Msg.mid).Nodup) ∧
    (∃ db2,
      markConversationRead exDbConv "u1" 10 =
        .ok ((newlyRead exDbConv "u1" 10).length, db2) ∧
      (newlyRead exDbConv "u1" 10).length =
        ((convMsgIdsNotFrom exDbConv "u1" 10).toFinset \
          (userReadIds exDbConv "u1").toFinset).card ∧
      db2.reads = exDbConv.reads ++
        (newlyRead exDbConv "u1" 10).map (fun i => (⟨i, "u1"⟩ : ReadMark)) ∧
      (∀ d, loadConversationDetail db2 10 "u1" = .ok d →
        ∀ fm ∈ d.messages, fm.sender ≠ "u1" → fm.isRead = true) ∧
      markConversationRead db2 "u1" 10 = .ok (0, db2)) :=
  ⟨⟨by decide, by decide, by decide⟩,
   markConversationRead_correct exDbConv "u1" 10 exConv (by decide) (by decide) (by decide)⟩

/-- Claim C8: on an initialized registry, `emitToUser` returns true exactly
when the user has at least one live connection, and it emits the event to
every connection registered for the user; a user with zero connections is
not an error — the call returns false and emits nothing. -/
theorem emitToUser_spec (s : SocketState) (u ev payload : String)
    (hio : s.ioReady = true) :
    ((emitToUser s u ev payload).1 = true ↔ getOnlineSockets s u ≠ []) ∧
    (emitToUser s u ev payload).2 =
      (getOnlineSockets s u).map (fun sid => (sid, ev, payload)) ∧
    (getOnlineSockets s u = [] → emitToUser s u ev payload = (false, [])) := by
  unfold emitToUser getOnlineSockets
  rw [hio]
  rw [if_neg (by decide : ¬((!true) = true))]
  by_cases hu : u = ""
  · rw [if_pos hu, if_pos hu]
    simp
  · rw [if_neg hu, if_neg hu]
    cases hls : lookupSockets s u with
    | none => simp
    | some ss =>
      cases ss with
      | nil => simp
      | cons a l => simp

/-- Witness for C8 at a concrete input: on `exSock`, emitting to `u1`
reaches both connections and returns true; `u9` (no connections) simply
gets false. -/
theorem emitToUser_spec_witness :
    exSock.ioReady = true ∧
    (((emitToUser exSock "u1" "e" "p").1 = true ↔ getOnlineSockets exSock "u1" ≠ []) ∧
      (emitToUser exSock "u1" "e" "p").2 =
        (getOnlineSockets exSock "u1").map (fun sid => (sid, "e", "p")) ∧
      (getOnlineSockets exSock "u1" = [] → emitToUser exSock "u1" "e" "p" = (false, []))) ∧
    (getOnlineSockets exSock "u9" = [] → emitToUser exSock "u9" "e" "p" = (false, [])) :=
  ⟨by decide, emitToUser_spec exSock "u1" "e" "p" (by decide),
   (emitToUser_spec exSock "u9" "e" "p" (by decide)).2.2⟩

/-- Looking a key up right after `userSockets.set` yields the new value. -/
theorem find?_setSockets (u : String) (ss : List String) :
    ∀ l : List (String × List String),
      ((setSockets l u ss).find? (fun q => q.1 == u)).map Prod.snd = some ss := by
  intro l
  induction l with
  | nil =>
    simp [setSockets]
  | cons q rest ih =>
    simp only [setSockets]
    by_cases hq : (q.1 == u) = true
    · rw [if_pos hq, List.find?_cons_of_pos _ (by simp)]
      rfl
    · rw [if_neg hq,
        @List.find?_cons_of_neg _ (fun q => q.1 == u) q (setSockets rest u ss) hq]
      exact ih

/-- Every entry after `userSockets.set` is the new entry or an old one. -/
theorem mem_setSockets (u : String) (ss : List String) :
    ∀ (l : List (String × List String)) (p : String × List String),
      p ∈ setSockets l u ss → p = (u, ss) ∨ p ∈ l := by
  intro l
  induction l with
  | nil =>
    intro p hp
    simp [setSockets] at hp
    exact Or.inl hp
  | cons q rest ih =>
    intro p hp
    simp only [setSockets] at hp
    by_cases hq : (q.1 == u) = true
    · rw [if_pos hq] at hp
      rcases List.mem_cons.mp hp with h1 | h2
      · exact Or.inl h1
      · exact Or.inr (List.mem_cons.mpr (Or.inr h2))
    · rw [if_neg hq] at hp
      rcases List.mem_cons.mp hp with h1 | h2
      · exact Or.inr (List.mem_cons.mpr (Or.inl h1))
      · rcases ih p h2 with h3 | h4
        · exact Or.inl h3
        · exact Or.inr (List.mem_cons.mpr (Or.inr h4))

/-- Every key after `userSockets.set` is an old key or the set key. -/
theorem keys_mem_setSockets (u : String) (ss : List String) :
    ∀ (l : List (String × List String)) (x : String),
      x ∈ (setSockets l u ss).map Prod.fst → x ∈ l.map Prod.fst ∨ x = u := by
  intro l x hx
  rcases List.mem_map.mp hx with ⟨p, hp, hpx⟩
  rcases mem_setSockets u ss l p hp with h1 | h2
  · right
    rw [← hpx, h1]
  · left
    exact List.mem_map.mpr ⟨p, h2, hpx⟩

/-- `userSockets.set` keeps the keys duplicate-free. -/
theorem nodup_keys_setSockets (u : String) (ss : List String) :
    ∀ l : List (String × List String), (l.map Prod.fst).Nodup →
      ((setSockets l u ss).map Prod.fst).Nodup := by
  intro l
  induction l with
  | nil =>
    intro _
    simp [setSockets]
  | cons q rest ih =>
    intro hnd
    simp only [List.map_cons, List.nodup_cons] at hnd
    simp only [setSockets]
    by_cases hq : (q.1 == u) = true
    · rw [if_pos hq]
      have hqe : q.1 = u := by simpa using hq
      simp only [List.map_cons, List.nodup_cons]
      rw [← hqe]
      exact hnd
    · rw [if_neg hq]
      simp only [List.map_cons, List.nodup_cons]
      refine ⟨?_, ih hnd.2⟩
      intro hmem
      rcases keys_mem_setSockets u ss rest q.1 hmem with h1 | h2
      · exact hnd.1 h1
      · rw [h2] at hq
        simp at hq

/-- `userSockets.delete` removes at most one entry, keeping a sublist. -/
theorem removeEntry_sublist (u : String) :
    ∀ l : List (String × List String), (removeEntry l u).Sublist l := by
  intro l
  induction l with
  | nil =>
    simp [removeEntry]
  | cons q rest ih =>
    simp only [removeEntry]
    by_cases hq : (q.1 == u) = true
    · rw [if_pos hq]
      exact List.sublist_cons_self q rest
    · rw [if_neg hq]
      exact List.Sublist.cons₂ q ih

/-- With duplicate-free keys, the deleted key is gone after
`userSockets.delete`. -/
theorem find?_removeEntry_none (u : String) :
    ∀ l : List (String × List String), (l.map Prod.fst).Nodup →
      (removeEntry l u).find? (fun q => q.1 == u) = none := by
  intro l
  induction l with
  | nil =>
    intro _
    rfl
  | cons q rest ih =>
    intro hnd
    simp only [List.map_cons, List.nodup_cons] at hnd
    simp only [removeEntry]
    by_cases hq : (q.1 == u) = true
    · rw [if_pos hq]
      have hqe : q.1 = u := by simpa using hq
      apply List.find?_eq_none.mpr
      intro p hp hpred
      have hpe : p.1 = u := by simpa using hpred
      apply hnd.1
      rw [hqe, ← hpe]
      exact List.mem_map.mpr ⟨p, hp, rfl⟩
    · rw [if_neg hq,
        @List.find?_cons_of_neg _ (fun q => q.1 == u) q (removeEntry rest u) hq]
      exact ih hnd.2

/-- A successful lookup names an actual entry of the registry. -/
theorem lookupSockets_entry (s : SocketState) (u : String) (ss : List String)
    (h : lookupSockets s u = some ss) :
    ∃ q ∈ s.userSockets, q.1 = u ∧ q.2 = ss := by
  rcases Option.map_eq_some'.mp h with ⟨q, hq, hq2⟩
  refine ⟨q, List.mem_of_find?_eq_some hq, ?_, hq2⟩
  simpa using List.find?_some hq

/-- `registerSocket` preserves registry well-formedness. -/
theorem registry_wf_register (s : SocketState) (u sid : String) (h : RegistryWF s) :
    RegistryWF (registerSocket s u sid) := by
  unfold registerSocket
  by_cases hg : u = "" ∨ sid = ""
  · rw [if_pos hg]
    exact h
  · rw [if_neg hg]
    rw [not_or] at hg
    have hgrown : ∀ g : List String,
        ((lookupSockets s u).getD []).contains sid = false →
        True := fun _ _ => trivial
    -- properties of the grown socket set
    have hprops : (let existing := (lookupSockets s u).getD []
        let grown := if existing.contains sid then existing else existing ++ [sid]
        grown ≠ [] ∧ grown.Nodup ∧ ∀ x ∈ grown, x ≠ "") := by
      cases hls : lookupSockets s u with
      | none =>
        simp only [Option.getD_none]
        rw [if_neg (by simp : ¬(([] : List String).contains sid = true))]
        refine ⟨by simp, by simp, ?_⟩
        intro x hx
        have hxe : x = sid := by simpa using hx
        rw [hxe]
        exact hg.2
      | some ss =>
        rcases lookupSockets_entry s u ss hls with ⟨q, hqmem, hq1, hq2⟩
        rcases h.2 q hqmem with ⟨_, hne, hndp, helem⟩
        rw [hq2] at hne hndp helem
        simp only [Option.getD_some]
        by_cases hcc : ss.contains sid = true
        · rw [if_pos hcc]
          exact ⟨hne, hndp, helem⟩
        · rw [if_neg hcc]
          have hsidnot : sid ∉ ss := by
            intro hmem
            exact hcc (by simpa using hmem)
          refine ⟨by simp, ?_, ?_⟩
          · rw [List.nodup_append]
            exact ⟨hndp, List.nodup_singleton sid, by
              intro x hx hx'
              rw [List.mem_singleton.mp hx'] at hx
              exact hsidnot hx⟩
          · intro x hx
            rcases List.mem_append.mp hx with h1 | h2
            · exact helem x h1
            · rw [List.mem_singleton.mp h2]
              exact hg.2
    constructor
    · exact nodup_keys_setSockets u _ s.userSockets h.1
    · intro p hp
      rcases mem_setSockets u _ s.userSockets p hp with h1 | h2
      · rw [h1]
        exact ⟨hg.1, hprops.1, hprops.2.1, hprops.2.2⟩
      · exact h.2 p h2

/-- `removeSocket` preserves registry well-formedness. -/
theorem registry_wf_remove (s : SocketState) (u sid : String) (h : RegistryWF s) :
    RegistryWF (removeSocket s u sid) := by
  unfold removeSocket
  by_cases hg : u = "" ∨ sid = ""
  · rw [if_pos hg]
    exact h
  · rw [if_neg hg]
    rw [not_or] at hg
    cases hls : lookupSockets s u with
    | none => exact h
    | some ss =>
      rcases lookupSockets_entry s u ss hls with ⟨q, hqmem, hq1, hq2⟩
      rcases h.2 q hqmem with ⟨_, _, hndp, helem⟩
      rw [hq2] at hndp helem
      dsimp only
      by_cases he : (ss.erase sid).isEmpty = true
      · rw [if_pos he]
        constructor
        · exact List.Nodup.sublist
            (List.Sublist.map Prod.fst (removeEntry_sublist u s.userSockets)) h.1
        · intro p hp
          exact h.2 p ((removeEntry_sublist u s.userSockets).subset hp)
      · rw [if_neg he]
        constructor
        · exact nodup_keys_setSockets u _ s.userSockets h.1
        · intro p hp
          rcases mem_setSockets u _ s.userSockets p hp with h1 | h2
          · rw [h1]
            refine ⟨hg.1, ?_, List.Nodup.erase sid hndp, ?_⟩
            · intro hnil
              have hnil' : ss.erase sid = [] := hnil
              rw [hnil'] at he
              exact he rfl
            · intro x hx
              exact helem x (List.erase_subset sid ss hx)
          · exact h.2 p h2

/-- Evaluating `removeSocket` when the user's current set is `x :: xs` and
the removed socket is `x`: the entry becomes `xs`, or disappears entirely
when `xs` is empty. -/
theorem removeSocket_eval (s : SocketState) (u x : String) (xs : List String)
    (hu : u ≠ "") (hx : x ≠ "") (hls : lookupSockets s u = some (x :: xs)) :
    removeSocket s u x =
      if xs.isEmpty then { s with userSockets := removeEntry s.userSockets u }
      else { s with userSockets := setSockets s.userSockets u xs } := by
  unfold removeSocket
  rw [if_neg (by simp [hu, hx] : ¬(u = "" ∨ x = ""))]
  simp only [hls]
  rw [List.erase_cons_head]

/-- Folding `removeSocket` over the user's whole socket set removes the
user's entry from the registry. -/
theorem removeAll_lookup_none (u : String) (hu : u ≠ "") :
    ∀ (ss : List String) (s : SocketState), RegistryWF s →
      lookupSockets s u = some ss →
      lookupSockets (ss.foldl (fun st sid => removeSocket st u sid) s) u = none := by
  intro ss
  induction ss with
  | nil =>
    intro s hwf hls
    exfalso
    rcases lookupSockets_entry s u [] hls with ⟨q, hqmem, _, hq2⟩
    exact (hwf.2 q hqmem).2.1 hq2
  | cons x xs ih =>
    intro s hwf hls
    rcases lookupSockets_entry s u (x :: xs) hls with ⟨q, hqmem, _, hq2⟩
    have hx : x ≠ "" := by
      refine (hwf.2 q hqmem).2.2.2 x ?_
      rw [hq2]
      exact List.mem_cons_self x xs
    rw [List.foldl_cons, removeSocket_eval s u x xs hu hx hls]
    cases hxs : xs with
    | nil =>
      subst hxs
      rw [if_pos List.isEmpty_nil]
      simp only [List.foldl_nil]
      unfold lookupSockets
      dsimp only
      rw [find?_removeEntry_none u s.userSockets hwf.1]
      rfl
    | cons y ys =>
      subst hxs
      rw [if_neg (by simp)]
      have hwf1 : RegistryWF { s with userSockets := setSockets s.userSockets u (y :: ys) } := by
        have hrm := registry_wf_remove s u x hwf
        rw [removeSocket_eval s u x (y :: ys) hu hx hls] at hrm
        rw [if_neg (by simp)] at hrm
        exact hrm
      refine ih _ hwf1 ?_
      unfold lookupSockets
      exact find?_setSockets u (y :: ys) s.userSockets

/-- Claim C9: the connection registry never holds a user entry with an
empty connection set — both registry operations preserve well-formedness —
and unregistering a user's last connection removes the entry entirely:
after all of a user's connections disconnect, the user has no entry, the
listed connection set is empty and `emitToUser` returns false. -/
theorem registry_no_empty_entries (s : SocketState) (u sid ev payload : String)
    (h : RegistryWF s) (hu : u ≠ "") :
    RegistryWF (registerSocket s u sid) ∧
    RegistryWF (removeSocket s u sid) ∧
    lookupSockets (removeAllSockets s u) u = none ∧
    getOnlineSockets (removeAllSockets s u) u = [] ∧
    (emitToUser (removeAllSockets s u) u ev payload).1 = false := by
  have hnone : lookupSockets (removeAllSockets s u) u = none := by
    unfold removeAllSockets getOnlineSockets
    rw [if_neg hu]
    cases hls : lookupSockets s u with
    | none => exact hls
    | some ss => exact removeAll_lookup_none u hu ss s h hls
  refine ⟨registry_wf_register s u sid h, registry_wf_remove s u sid h, hnone, ?_, ?_⟩
  · unfold getOnlineSockets
    rw [if_neg hu, hnone]
  · unfold emitToUser
    cases hio : (removeAllSockets s u).ioReady with
    | false => rfl
    | true =>
      rw [if_neg (by decide : ¬((!true) = true)), if_neg hu, hnone]

/-- Witness for C9 at a concrete input: after `u1`'s two connections both
disconnect from `exSock`, the entry is gone, the listed set is empty and
`u1` is no longer reachable. -/
theorem registry_no_empty_entries_witness :
    (RegistryWF exSock ∧ ("u1" : String) ≠ "") ∧
    (RegistryWF (registerSocket exSock "u1" "s3") ∧
      RegistryWF (removeSocket exSock "u1" "s3") ∧
      lookupSockets (removeAllSockets exSock "u1") "u1" = none ∧
      getOnlineSockets (removeAllSockets exSock "u1") "u1" = [] ∧
      (emitToUser (removeAllSockets exSock "u1") "u1" "e" "p").1 = false) :=
  ⟨⟨⟨by decide, by decide⟩, by decide⟩,
   registry_no_empty_entries exSock "u1" "s3" "e" "p" ⟨by decide, by decide⟩ (by decide)⟩

end AutoEcom
